import Mathlib

/-!
# weatherbro: a verification development of `main.go`

The program parses a `--show` option into a selection (`showDetails.Set`),
fetches one weather record (`getWeatherData`) and prints it
(`displayWeather`).  The Go functions are embedded as Lean functions:

* the process-wide variable `showFlagProvidedByUser` is passed explicitly;
* standard output is the list of texts written by the successive
  `fmt.Printf` calls (`stdout` concatenates them);
* Go strings are Lean strings (valid UTF-8 text), `len` is the UTF-8 byte
  count, `[]rune` is the list of characters;
* `int64` arithmetic wraps modulo `2 ^ 64` (`wrapInt64`);
* a finite `float64` is the rational number it denotes (JSON decoding yields
  neither NaN nor an infinity; negative zero is not told apart from zero);
* the library routines of `strings`, `unicode`, `fmt` and `time` that the
  program calls are modelled in the first section; the Unicode case table
  behind `unicode.ToLower`, the transport `http.Get` and the decoder
  `json.Unmarshal` are parameters.
-/

namespace Weatherbro

/-! ## Library models -/

/-- Two-complement wrap-around of a signed 64-bit integer. -/
def wrapInt64 (x : Int) : Int := (x + 2 ^ 63) % 2 ^ 64 - 2 ^ 63

/-- The largest `int64`. -/
def maxInt64 : Int := 2 ^ 63 - 1

/-- A finite `float64`, as the rational number it denotes. -/
abbrev Float64 := ℚ

/-- Decimal digits of a natural number, left-padded with zeros to `width`. -/
def padLeftZeros (width : Nat) (n : Nat) : String :=
  String.mk (List.replicate (width - (Nat.repr n).length) '0') ++ Nat.repr n

/-- Go `%d` on an integer. -/
def fmtInt (i : Int) : String :=
  if i < 0 then "-" ++ Nat.repr i.natAbs else Nat.repr i.natAbs

/-- Go `%.<prec>f` on a finite `float64`: the sign, then the magnitude
rounded to `prec` decimals (ties to even) in positional notation. -/
def fmtFixed (prec : Nat) (q : Float64) : String :=
  let a := q.num.natAbs * 10 ^ prec
  let d := q.den
  let fl := a / d
  let r := a % d
  let n := if d < 2 * r ∨ (2 * r = d ∧ fl % 2 = 1) then fl + 1 else fl
  let body :=
    if prec = 0 then Nat.repr n
    else Nat.repr (n / 10 ^ prec) ++ "." ++ padLeftZeros prec (n % 10 ^ prec)
  if q < 0 then "-" ++ body else body

/-- The rune test `unicode.IsSpace`: the Unicode White_Space property. -/
def unicodeIsSpace (c : Char) : Bool :=
  let n := c.toNat
  (9 ≤ n && n ≤ 13) || n = 32 || n = 133 || n = 160 || n = 5760 ||
    (8192 ≤ n && n ≤ 8202) || n = 8232 || n = 8233 || n = 8239 || n = 8287 ||
    n = 12288

/-- The rune map `unicode.ToLower`: ASCII is handled inline, every other rune
is looked up in the Unicode case table `caseTable` (the library table
`To(LowerCase, r)`, which is not part of the program). -/
def unicodeToLower (caseTable : Char → Char) (r : Char) : Char :=
  if r.toNat ≤ 127 then
    if 65 ≤ r.toNat ∧ r.toNat ≤ 90 then Char.ofNat (r.toNat + 32) else r
  else caseTable r

/-- Go `strings.ToLower`: every rune mapped by `unicode.ToLower`. -/
def stringsToLower (caseTable : Char → Char) (s : String) : String :=
  String.mk (s.data.map (unicodeToLower caseTable))

/-- Leading white space removed, then trailing white space removed. -/
def trimRunes (l : List Char) : List Char :=
  ((l.dropWhile unicodeIsSpace).reverse.dropWhile unicodeIsSpace).reverse

/-- Go `strings.TrimSpace`: leading and trailing white space removed. -/
def stringsTrimSpace (s : String) : String := String.mk (trimRunes s.data)

/-- Pieces of a rune list between occurrences of `sep`. -/
def splitRunes (sep : Char) : List Char → List (List Char)
  | [] => [[]]
  | c :: cs =>
    if c = sep then [] :: splitRunes sep cs
    else
      match splitRunes sep cs with
      | [] => [[c]]
      | p :: ps => (c :: p) :: ps

/-- Go `strings.Split(s, sep)` for a one-rune separator. -/
def stringsSplit (s : String) (sep : Char) : List String :=
  (splitRunes sep s.data).map String.mk

/-! ### The `time` package

A `Time` in UTC is rendered from its absolute second count, an unsigned 64-bit
number of seconds since the absolute epoch of the package.  The constants are
those of Go up to 1.22; later releases move the absolute epoch by 306 days,
which changes no clock time and no date in the range where the count does
not wrap. -/

/-- A clock reading `time.Now().UTC()`: seconds since the Unix epoch and the
nanoseconds within the second. -/
structure Time where
  sec : Int
  nsec : Nat
  deriving DecidableEq, Repr

/-- Seconds from the internal epoch (year 1) to the Unix epoch. -/
def unixToInternal : Int := (1969 * 365 + 1969 / 4 - 1969 / 100 + 1969 / 400) * 86400

/-- Seconds from the absolute epoch of the `time` package to the Unix epoch
(`unixToInternal + internalToAbsolute`). -/
def unixToAbsolute : Int := 9223372028715321600

/-- The year of the absolute epoch. -/
def absoluteZeroYear : Int := -292277022399

/-- The unsigned absolute second count `Time.abs` of a UTC time. -/
def absSeconds (unixSec : Int) : Nat := ((unixSec + unixToAbsolute) % 2 ^ 64).toNat

/-- Rendering of layout `15:04:05` from an absolute second count. -/
def formatClock (abs : Nat) : String :=
  let s := abs % 86400
  padLeftZeros 2 (s / 3600) ++ ":" ++ padLeftZeros 2 (s % 3600 / 60) ++ ":" ++
    padLeftZeros 2 (s % 60)

/-- Go `time.Unix(sec, 0).UTC().Format("15:04:05")` for an `int64` value. -/
def unixClock (sec : Int) : String := formatClock (absSeconds sec)

/-- The constant `unixToAbsolute` of the later releases of the `time` package,
whose absolute epoch lies 306 days earlier. -/
def unixToAbsoluteLater : Int := 9223372028715321600 + 306 * 86400

/-- The clock `unixClock` as the later releases of the `time` package render
it. -/
def unixClockLater (sec : Int) : String :=
  formatClock (((sec + unixToAbsoluteLater) % 2 ^ 64).toNat)

def isLeap (year : Int) : Bool :=
  year % 4 = 0 && (year % 100 ≠ 0 || year % 400 = 0)

/-- Days before the start of each month of a non-leap year. -/
def daysBefore : List Nat := [0, 31, 59, 90, 120, 151, 181, 212, 243, 273, 304, 334, 365]

/-- The calendar date `(year, month, day)` of an absolute second count
(`absDate` of the `time` package). -/
def absDate (abs : Nat) : Int × Nat × Nat :=
  let d0 := abs / 86400
  let n400 := d0 / 146097
  let d1 := d0 - 146097 * n400
  let n100 := d1 / 36524 - (d1 / 36524) / 4
  let d2 := d1 - 36524 * n100
  let n4 := d2 / 1461
  let d3 := d2 - 1461 * n4
  let n1 := d3 / 365 - (d3 / 365) / 4
  let yday := d3 - 365 * n1
  let y := 400 * n400 + 100 * n100 + 4 * n4 + n1
  let year := wrapInt64 ((y : Int) + absoluteZeroYear)
  if isLeap year ∧ yday = 31 + 29 - 1 then (year, 2, 29)
  else
    let day := if isLeap year ∧ yday > 31 + 29 - 1 then yday - 1 else yday
    let m := day / 31
    let stop := daysBefore.getD (m + 1) 0
    if day ≥ stop then (year, m + 2, day - stop + 1)
    else (year, m + 1, day - daysBefore.getD m 0 + 1)

/-- The `appendInt` helper of the `time` package: sign, zero padding, digits. -/
def appendInt (x : Int) (width : Nat) : String :=
  if x < 0 then "-" ++ padLeftZeros width x.natAbs else padLeftZeros width x.natAbs

/-- Rendering of layout `2006-01-02 15:04:05` from an absolute second count. -/
def formatDateTime (abs : Nat) : String :=
  let ymd := absDate abs
  appendInt ymd.1 4 ++ "-" ++ padLeftZeros 2 ymd.2.1 ++ "-" ++ padLeftZeros 2 ymd.2.2 ++
    " " ++ formatClock abs

/-- Go `Time.Add` followed by the second count of the result: the duration is
split into seconds and nanoseconds, the nanoseconds carry, and the seconds
saturate instead of overflowing (`addSec`).  The result is the internal
second count turned back into Unix seconds. -/
def timeAddSec (t : Time) (d : Int) : Int :=
  let nsec := (t.nsec : Int) + Int.tmod d 1000000000
  let dsec :=
    if nsec ≥ 1000000000 then Int.tdiv d 1000000000 + 1
    else if nsec < 0 then Int.tdiv d 1000000000 - 1
    else Int.tdiv d 1000000000
  let ext := wrapInt64 (t.sec + unixToInternal)
  let sum := wrapInt64 (ext + dsec)
  let ext1 :=
    if decide (sum > ext) = decide (dsec > 0) then sum
    else if dsec > 0 then maxInt64 else -maxInt64
  wrapInt64 (ext1 - unixToInternal)

/-! ## Data model (`main.go`, lines 15-58) -/

def API_KEY : String := "7441f0ec33ab2221a2f7285fbb1f2c93"

def BASE_URL : String := "http://api.openweathermap.org/data/2.5/weather"

/-- The `sys` object of a response. -/
structure SysData where
  Country : String
  Sunrise : Int
  Sunset : Int
  deriving DecidableEq

/-- One entry of the `weather` array. -/
structure WeatherItem where
  Description : String
  deriving DecidableEq

/-- The `main` object of a response. -/
structure MainData where
  Temp : Float64
  FeelsLike : Float64
  TempMin : Float64
  TempMax : Float64
  Humidity : Int
  Pressure : Int
  deriving DecidableEq

/-- The `wind` object of a response. -/
structure WindData where
  Speed : Float64
  deriving DecidableEq

/-- The `clouds` object of a response. -/
structure CloudsData where
  All : Int
  deriving DecidableEq

/-- The `rain` and `snow` objects of a response. -/
structure VolumeData where
  OneH : Float64
  deriving DecidableEq

/-- The decoded response.  `Sunrise`, `Sunset` and `Timezone` are `int64`
values, `Humidity`, `Pressure` and `All` are `int` values. -/
structure WeatherResponse where
  Name : String
  Sys : SysData
  Weather : List WeatherItem
  Main : MainData
  Wind : WindData
  Clouds : CloudsData
  Rain : VolumeData
  Snow : VolumeData
  Timezone : Int
  deriving DecidableEq

/-- The type `showDetails` (`map[string]bool`), as its lookup function: a
missing key reads `false`. -/
abbrev showDetails := String → Bool

/-- The map `make(map[string]bool)`. -/
def showDetails.empty : showDetails := fun _ => false

/-- The assignment `m[key] = true`. -/
def showDetails.insertTrue (m : showDetails) (key : String) : showDetails :=
  fun k => if k = key then true else m k

/-- The two variables written by the option parser: the global
`showFlagProvidedByUser` and the variable `detailsToShow` of `main`. -/
structure FlagState where
  showFlagProvidedByUser : Bool
  detailsToShow : showDetails

/-- The state before any option is parsed. -/
def FlagState.initial : FlagState := ⟨false, showDetails.empty⟩

/-! ## `showDetails.Set` (lines 71-85) -/

/-- One iteration of the loop over the parts. -/
def showDetails.setStep (caseTable : Char → Char) (m : showDetails) (p : String) :
    showDetails :=
  let detail := stringsTrimSpace (stringsToLower caseTable p)
  if detail ≠ "" then m.insertTrue detail else m

/-- The method `Set`: the new state and the returned error (always `nil`). -/
def showDetails.Set (caseTable : Char → Char) (value : String) (_st : FlagState) :
    FlagState × Option String :=
  let parts := stringsSplit value ','
  (⟨true, parts.foldl (showDetails.setStep caseTable) showDetails.empty⟩, none)

/-! ## `getWeatherData` (lines 89-121) -/

/-- What `http.Get` hands back on success: the status code, the bytes that
`io.ReadAll` obtains from the body and the error of that read, if any. -/
structure HttpResponse where
  StatusCode : Int
  Body : String
  ReadErr : Option String

/-- The function `getWeatherData`; the transport `httpGet` and the decoder
`unmarshal` (`json.Unmarshal` into a `WeatherResponse`) are the environment.
An error is represented by its message. -/
def getWeatherData (httpGet : String → Except String HttpResponse)
    (unmarshal : String → Except String WeatherResponse) (city : String) :
    Except String WeatherResponse :=
  let url := BASE_URL ++ "?q=" ++ city ++ "&appid=" ++ API_KEY ++ "&units=metric"
  match httpGet url with
  | .error err => .error ("failed to make HTTP request: " ++ err)
  | .ok resp =>
    if resp.StatusCode ≠ 200 then
      if resp.StatusCode = 401 then
        .error "error: Invalid API Key. Please check your API_KEY in main.go"
      else if resp.StatusCode = 404 then
        .error ("error: City \x27" ++ city ++ "\x27 not found. Please check the city name")
      else
        .error ("API returned non-200 status: " ++ fmtInt resp.StatusCode ++ " - " ++ resp.Body)
    else
      match resp.ReadErr with
      | some err => .error ("failed to read response body: " ++ err)
      | none =>
        match unmarshal resp.Body with
        | .error err => .error ("failed to unmarshal JSON: " ++ err)
        | .ok weatherData => .ok weatherData

/-! ## Helper functions (lines 234-259) -/

def toUpper (r : Char) : Char :=
  if 97 ≤ r.toNat ∧ r.toNat ≤ 122 then Char.ofNat (r.toNat - 32) else r

def capitalizeFirstLetter (s : String) : String :=
  match s.data with
  | [] => s
  | r :: rs => String.mk (toUpper r :: rs)

def newString (length : Int) (char : Char) : String :=
  if length ≤ 0 then "" else String.mk (List.replicate length.toNat char)

/-! ## `displayWeather` (lines 123-231) -/

/-- The text `fmt.Sprintf("--- Weather in %s, %s ---", city, country)`. -/
def headerText (city country : String) : String :=
  "--- Weather in " ++ city ++ ", " ++ country ++ " ---"

/-- The function `displayWeather`: the texts written to standard output by
its `fmt.Printf` calls, in order.  `now` is the reading of `time.Now().UTC()`
taken by the call. -/
def displayWeather (showFlagProvidedByUser : Bool) (now : Time)
    (data : Option WeatherResponse) (detailsToShow : showDetails) : List String :=
  match data with
  | none => []
  | some data =>
    let city := data.Name
    let country := data.Sys.Country
    let header := ["\n--- Weather in " ++ city ++ ", " ++ country ++ " ---\n"]
    let displayAll := !showFlagProvidedByUser || detailsToShow "all"
    let body :=
      if displayAll then
        let weatherDescription :=
          match data.Weather with
          | [] => "N/A"
          | w :: _ => w.Description
        let sunriseLocal := unixClock (wrapInt64 (data.Sys.Sunrise + data.Timezone))
        let sunsetLocal := unixClock (wrapInt64 (data.Sys.Sunset + data.Timezone))
        let precipitationInfo :=
          if data.Rain.OneH > 0 ∨ data.Snow.OneH > 0 then
            let p1 :=
              if data.Rain.OneH > 0 then
                "" ++ ("Rain: " ++ fmtFixed 2 data.Rain.OneH ++ " mm (last 1h)")
              else ""
            if data.Snow.OneH > 0 then
              let p2 := if p1 ≠ "" then p1 ++ ", " else p1
              p2 ++ ("Snow: " ++ fmtFixed 2 data.Snow.OneH ++ " mm (last 1h)")
            else p1
          else "No recent precipitation reported"
        let localTime :=
          formatDateTime (absSeconds (timeAddSec now (wrapInt64 (data.Timezone * 1000000000))))
        [ "Condition: " ++ capitalizeFirstLetter weatherDescription ++ "\n",
          "Temperature: " ++ fmtFixed 1 data.Main.Temp ++ "°C (Feels like: " ++
            fmtFixed 1 data.Main.FeelsLike ++ "°C)\n",
          "Min Temp: " ++ fmtFixed 1 data.Main.TempMin ++ "°C, Max Temp: " ++
            fmtFixed 1 data.Main.TempMax ++ "°C\n",
          "Humidity: " ++ fmtInt data.Main.Humidity ++ "%\n",
          "Pressure: " ++ fmtInt data.Main.Pressure ++ " hPa\n",
          "Wind Speed: " ++ fmtFixed 1 data.Wind.Speed ++ " m/s\n",
          "Cloudiness: " ++ fmtInt data.Clouds.All ++ "%\n",
          "Sunrise: " ++ sunriseLocal ++ "\n",
          "Sunset: " ++ sunsetLocal ++ "\n",
          "Precipitation: " ++ precipitationInfo ++ "\n",
          "Current Local Time: " ++ localTime ++ "\n" ]
      else
        (if detailsToShow "condition" then
          let weatherDescription :=
            match data.Weather with
            | [] => "N/A"
            | w :: _ => w.Description
          ["Condition: " ++ capitalizeFirstLetter weatherDescription ++ "\n"]
        else []) ++
        (if detailsToShow "temperature" || detailsToShow "temp" then
          [ "Temperature: " ++ fmtFixed 1 data.Main.Temp ++ "°C (Feels like: " ++
              fmtFixed 1 data.Main.FeelsLike ++ "°C)\n",
            "Min Temp: " ++ fmtFixed 1 data.Main.TempMin ++ "°C, Max Temp: " ++
              fmtFixed 1 data.Main.TempMax ++ "°C\n" ]
        else []) ++
        (if detailsToShow "humidity" then
          ["Humidity: " ++ fmtInt data.Main.Humidity ++ "%\n"]
        else []) ++
        (if detailsToShow "pressure" then
          ["Pressure: " ++ fmtInt data.Main.Pressure ++ " hPa\n"]
        else []) ++
        (if detailsToShow "wind-speed" || detailsToShow "wind" then
          ["Wind Speed: " ++ fmtFixed 1 data.Wind.Speed ++ " m/s\n"]
        else []) ++
        (if detailsToShow "cloudiness" || detailsToShow "clouds" then
          ["Cloudiness: " ++ fmtInt data.Clouds.All ++ "%\n"]
        else []) ++
        (if detailsToShow "sunrise" then
          let sunriseLocal := unixClock (wrapInt64 (data.Sys.Sunrise + data.Timezone))
          ["Sunrise: " ++ sunriseLocal ++ "\n"]
        else []) ++
        (if detailsToShow "sunset" then
          let sunsetLocal := unixClock (wrapInt64 (data.Sys.Sunset + data.Timezone))
          ["Sunset: " ++ sunsetLocal ++ "\n"]
        else []) ++
        (if detailsToShow "precipitation" || detailsToShow "rain" || detailsToShow "snow" then
          let precipitationInfo :=
            if data.Rain.OneH > 0 ∨ data.Snow.OneH > 0 then
              let p1 :=
                if data.Rain.OneH > 0 then
                  "" ++ ("Rain: " ++ fmtFixed 2 data.Rain.OneH ++ " mm (last 1h)")
                else ""
              if data.Snow.OneH > 0 then
                let p2 := if p1 ≠ "" then p1 ++ ", " else p1
                p2 ++ ("Snow: " ++ fmtFixed 2 data.Snow.OneH ++ " mm (last 1h)")
              else p1
            else "No recent precipitation reported"
          ["Precipitation: " ++ precipitationInfo ++ "\n"]
        else []) ++
        (if detailsToShow "time" || detailsToShow "current-time" then
          let localTime :=
            formatDateTime
              (absSeconds (timeAddSec now (wrapInt64 (data.Timezone * 1000000000))))
          ["Current Local Time: " ++ localTime ++ "\n"]
        else [])
    let separator := [newString (headerText city country).utf8ByteSize '-' ++ "\n"]
    header ++ body ++ separator

/-- Standard output as one text. -/
def stdout (writes : List String) : String := String.join writes

/-! ## Specification-side definitions

These follow the wording of the specification; the theorems below compare
them with the functions embedded from the source. -/

/-- The ten displayed fields of the specification. -/
inductive Field where
  | condition | temperature | humidity | pressure | wind
  | cloudiness | sunrise | sunset | precipitation | time
  deriving DecidableEq, Repr

/-- The fixed display order of the fields. -/
def Field.order : List Field :=
  [.condition, .temperature, .humidity, .pressure, .wind,
   .cloudiness, .sunrise, .sunset, .precipitation, .time]

/-- The tokens (synonyms) that select a field. -/
def Field.tokens : Field → List String
  | .condition => ["condition"]
  | .temperature => ["temperature", "temp"]
  | .humidity => ["humidity"]
  | .pressure => ["pressure"]
  | .wind => ["wind-speed", "wind"]
  | .cloudiness => ["cloudiness", "clouds"]
  | .sunrise => ["sunrise"]
  | .sunset => ["sunset"]
  | .precipitation => ["precipitation", "rain", "snow"]
  | .time => ["time", "current-time"]

/-- A field is selected when at least one of its tokens is in the selection. -/
def Field.selected (sel : showDetails) (f : Field) : Bool := f.tokens.any sel

/-- The recognised vocabulary: `all` and the tokens of the fields. -/
def vocabulary : List String := "all" :: Field.order.flatMap Field.tokens

/-- The lines of one field among the eleven body lines of display-all mode:
the temperature block has two lines, every other field one. -/
def Field.linesOf (body : List String) : Field → List String
  | .condition => (body.drop 0).take 1
  | .temperature => (body.drop 1).take 2
  | .humidity => (body.drop 3).take 1
  | .pressure => (body.drop 4).take 1
  | .wind => (body.drop 5).take 1
  | .cloudiness => (body.drop 6).take 1
  | .sunrise => (body.drop 7).take 1
  | .sunset => (body.drop 8).take 1
  | .precipitation => (body.drop 9).take 1
  | .time => (body.drop 10).take 1

/-- The writes between the header and the separator. -/
def fieldLines (writes : List String) : List String := writes.tail.dropLast

/-- The selection with token `a` taken out and token `b` put in. -/
def replaceToken (sel : showDetails) (a b : String) : showDetails :=
  fun k => if k = b then true else if k = a then false else sel k

/-- The tokens of an option value in the words of the specification: split on
the comma, trim white space, lower-case, discard the empty pieces. -/
def specTokens (caseTable : Char → Char) (value : String) : List String :=
  ((stringsSplit value ',').map
    (fun p => stringsToLower caseTable (stringsTrimSpace p))).filter (fun t => t ≠ "")

/-- Upper-case letters (Unicode category Lu) named in this development: the
ASCII letters `A`-`Z`, and the mathematical bold capitals U+1D400-U+1D419,
which have no lower-case form.  The library test `unicode.IsUpper` is `true`
on each of them. -/
def listedUpperCase (c : Char) : Bool :=
  (65 ≤ c.toNat && c.toNat ≤ 90) || (119808 ≤ c.toNat && c.toNat ≤ 119833)

/-- The precipitation summary in the words of the specification: decided by
which volumes are nonzero. -/
def specPrecipitation (rain snow : Float64) : String :=
  if rain = 0 ∧ snow = 0 then "No recent precipitation reported"
  else
    ", ".intercalate
      ((if rain ≠ 0 then ["Rain: " ++ fmtFixed 2 rain ++ " mm (last 1h)"] else []) ++
       (if snow ≠ 0 then ["Snow: " ++ fmtFixed 2 snow ++ " mm (last 1h)"] else []))

/-- The precipitation summary decided by which volumes are greater than zero. -/
def positivePrecipitation (rain snow : Float64) : String :=
  if ¬ (0 < rain) ∧ ¬ (0 < snow) then "No recent precipitation reported"
  else
    ", ".intercalate
      ((if 0 < rain then ["Rain: " ++ fmtFixed 2 rain ++ " mm (last 1h)"] else []) ++
       (if 0 < snow then ["Snow: " ++ fmtFixed 2 snow ++ " mm (last 1h)"] else []))

/-- The header line: a blank line, then the header text. -/
def headerLine (d : WeatherResponse) : String :=
  "\n" ++ headerText d.Name d.Sys.Country ++ "\n"

/-- The separator line with one dash per byte of the header text. -/
def separatorLine (d : WeatherResponse) : String :=
  String.mk (List.replicate (headerText d.Name d.Sys.Country).utf8ByteSize '-') ++
    "\n"

/-- The first condition description, `N/A` when there is none. -/
def firstDescription (d : WeatherResponse) : String :=
  (d.Weather.head?.map WeatherItem.Description).getD "N/A"

def conditionLine (d : WeatherResponse) : String :=
  "Condition: " ++ capitalizeFirstLetter (firstDescription d) ++ "\n"

def temperatureLine (d : WeatherResponse) : String :=
  "Temperature: " ++ fmtFixed 1 d.Main.Temp ++ "°C (Feels like: " ++
    fmtFixed 1 d.Main.FeelsLike ++ "°C)\n"

def minMaxLine (d : WeatherResponse) : String :=
  "Min Temp: " ++ fmtFixed 1 d.Main.TempMin ++ "°C, Max Temp: " ++
    fmtFixed 1 d.Main.TempMax ++ "°C\n"

def humidityLine (d : WeatherResponse) : String :=
  "Humidity: " ++ fmtInt d.Main.Humidity ++ "%\n"

def pressureLine (d : WeatherResponse) : String :=
  "Pressure: " ++ fmtInt d.Main.Pressure ++ " hPa\n"

def windLine (d : WeatherResponse) : String :=
  "Wind Speed: " ++ fmtFixed 1 d.Wind.Speed ++ " m/s\n"

def cloudinessLine (d : WeatherResponse) : String :=
  "Cloudiness: " ++ fmtInt d.Clouds.All ++ "%\n"

def sunriseLine (d : WeatherResponse) : String :=
  "Sunrise: " ++ unixClock (wrapInt64 (d.Sys.Sunrise + d.Timezone)) ++ "\n"

def sunsetLine (d : WeatherResponse) : String :=
  "Sunset: " ++ unixClock (wrapInt64 (d.Sys.Sunset + d.Timezone)) ++ "\n"

def precipitationLine (d : WeatherResponse) : String :=
  "Precipitation: " ++ positivePrecipitation d.Rain.OneH d.Snow.OneH ++ "\n"

def timeLine (now : Time) (d : WeatherResponse) : String :=
  "Current Local Time: " ++
    formatDateTime (absSeconds (timeAddSec now (wrapInt64 (d.Timezone * 1000000000)))) ++ "\n"

/-- The eleven body lines of display-all mode, in the fixed order. -/
def allLines (now : Time) (d : WeatherResponse) : List String :=
  [conditionLine d, temperatureLine d, minMaxLine d, humidityLine d, pressureLine d,
   windLine d, cloudinessLine d, sunriseLine d, sunsetLine d, precipitationLine d,
   timeLine now d]

/-- The `HH:MM:SS` time of day, in UTC, of the instant `t` seconds after the
Unix epoch. -/
def specClock (t : Int) : String :=
  let s := (t % 86400).toNat
  padLeftZeros 2 (s / 3600) ++ ":" ++ padLeftZeros 2 (s % 3600 / 60) ++ ":" ++
    padLeftZeros 2 (s % 60)

/-! ## Sample inputs -/

/-- A record for Zürich with rain and snow; the `float64` fields hold values
that a `float64` represents exactly. -/
def sampleRecord : WeatherResponse :=
  { Name := "Zürich", Sys := ⟨"CH", 1700000000, 1700030000⟩,
    Weather := [⟨"light rain"⟩],
    Main := ⟨mkRat 25 2, mkRat 23 2, 10, mkRat 31 2, 80, 1013⟩,
    Wind := ⟨mkRat 7 2⟩, Clouds := ⟨75⟩,
    Rain := ⟨mkRat 3 2⟩, Snow := ⟨1⟩, Timezone := 3600 }

/-- A clock reading. -/
def sampleNow : Time := ⟨1700000000, 5⟩

/-- The sample record with a rain volume of `-1` and no snow. -/
def negativeRainRecord : WeatherResponse :=
  { sampleRecord with Rain := ⟨mkRat (-1) 1⟩, Snow := ⟨0⟩ }

/-- The sample record with the least `int64` as sunrise and as UTC offset. -/
def extremeRecord : WeatherResponse :=
  { sampleRecord with
    Sys := ⟨"CH", -9223372036854775808, 1700030000⟩, Timezone := -9223372036854775808 }

/-- The sample record with the least `int64` as sunrise and UTC offset zero. -/
def minSunriseRecord : WeatherResponse :=
  { sampleRecord with Sys := ⟨"CH", -9223372036854775808, 1700030000⟩, Timezone := 0 }

/-! ## Theorems -/

/-! ### Texts -/

theorem append_eq_empty_iff (a b : String) : a ++ b = "" ↔ a = "" ∧ b = "" := by
  constructor
  · intro h
    have h1 : (a ++ b).data = [] := by rw [h]
    rw [String.data_append, List.append_eq_nil] at h1
    exact ⟨String.ext h1.1, String.ext h1.2⟩
  · rintro ⟨rfl, rfl⟩
    rfl

theorem newString_natCast (n : Nat) (c : Char) :
    newString (n : Int) c = String.mk (List.replicate n c) := by
  unfold newString
  split
  · have : n = 0 := by omega
    subst this
    rfl
  · simp

/-- The writes of `displayWeather` on a record: the header line, the body
chosen by `displayAll`, the separator line. -/
theorem displayWeather_some (flag : Bool) (now : Time) (d : WeatherResponse)
    (sel : showDetails) :
    displayWeather flag now (some d) sel =
      headerLine d ::
        ((if (!flag || sel "all") = true then allLines now d
          else Field.order.flatMap
            (fun f => if f.selected sel = true then f.linesOf (allLines now d) else [])) ++
        [separatorLine d]) := by
  have hdesc : (match d.Weather with | [] => "N/A" | w :: _ => w.Description) =
      firstDescription d := by
    unfold firstDescription
    cases d.Weather <;> rfl
  have h1 : ∀ x : String, "\n--- Weather in " ++ x = "\n" ++ ("--- Weather in " ++ x) := by
    intro x
    have h : "\n--- Weather in " = "\n" ++ "--- Weather in " := by decide
    rw [h, String.append_assoc]
  have h2 : "Rain: " ≠ "" := by decide
  by_cases hall : (!flag || sel "all") = true <;>
  by_cases hr : 0 < d.Rain.OneH <;> by_cases hs : 0 < d.Snow.OneH <;>
    simp [displayWeather, hall, positivePrecipitation, hr, hs, hdesc, h1, h2, headerLine, separatorLine,
      allLines, conditionLine, temperatureLine, minMaxLine, humidityLine, pressureLine, windLine,
      cloudinessLine, sunriseLine, sunsetLine, precipitationLine, timeLine, headerText,
      newString_natCast, append_eq_empty_iff, Field.order, Field.selected, Field.tokens,
      Field.linesOf, or_assoc,
      String.intercalate, String.intercalate.go, String.append_assoc]

/-- The body lines are what lies between the header and the separator. -/
theorem fieldLines_displayWeather (flag : Bool) (now : Time) (d : WeatherResponse)
    (sel : showDetails) :
    fieldLines (displayWeather flag now (some d) sel) =
      if (!flag || sel "all") = true then allLines now d
      else Field.order.flatMap
        (fun f => if f.selected sel = true then f.linesOf (allLines now d) else []) := by
  rw [displayWeather_some]
  simp [fieldLines]

/-! ### The option parser -/

theorem Set_all (caseTable : Char → Char) (st : FlagState) :
    (showDetails.Set caseTable "all" st).1.showFlagProvidedByUser = true ∧
      (showDetails.Set caseTable "all" st).1.detailsToShow "all" = true :=
  ⟨rfl, rfl⟩

/-! ### Display-all mode and the empty selection -/

/-- C1: whenever the selection contains `all`, `displayWeather` with the
option supplied writes the same texts, hence the same bytes, as
`displayWeather` when the option was never supplied (flag `false`, empty
selection). -/
theorem displayWeather_all_eq_omitted (now : Time) (data : Option WeatherResponse)
    (detailsToShow : showDetails) (h : detailsToShow "all" = true) :
    displayWeather true now data detailsToShow =
        displayWeather false now data showDetails.empty ∧
      stdout (displayWeather true now data detailsToShow) =
        stdout (displayWeather false now data showDetails.empty) := by
  have key : displayWeather true now data detailsToShow =
      displayWeather false now data showDetails.empty := by
    cases data with
    | none => rfl
    | some d => simp [displayWeather, h]
  exact ⟨key, by rw [key]⟩

/-- Witness of C1 at the selection parsed from `all`. -/
theorem displayWeather_all_eq_omitted_witness :
    (showDetails.Set id "all" FlagState.initial).1.detailsToShow "all" = true ∧
      (displayWeather true sampleNow (some sampleRecord)
            (showDetails.Set id "all" FlagState.initial).1.detailsToShow =
          displayWeather false sampleNow (some sampleRecord) showDetails.empty ∧
        stdout (displayWeather true sampleNow (some sampleRecord)
            (showDetails.Set id "all" FlagState.initial).1.detailsToShow) =
          stdout (displayWeather false sampleNow (some sampleRecord) showDetails.empty)) :=
  ⟨rfl, displayWeather_all_eq_omitted sampleNow (some sampleRecord) _ rfl⟩

/-- Counterexample to C2: for the option value `""` the output is not the
separator line alone; the header line is written before it. -/
theorem displayWeather_empty_show_not_only_separator :
    displayWeather (showDetails.Set id "" FlagState.initial).1.showFlagProvidedByUser
        sampleNow (some sampleRecord)
        (showDetails.Set id "" FlagState.initial).1.detailsToShow ≠
      [separatorLine sampleRecord] ∧
    stdout (displayWeather (showDetails.Set id "" FlagState.initial).1.showFlagProvidedByUser
        sampleNow (some sampleRecord)
        (showDetails.Set id "" FlagState.initial).1.detailsToShow) =
      "\n--- Weather in Zürich, CH ---\n------------------------------\n" := by
  decide

/-- C2 (amended): `Set("")` returns no error and leaves the flag `true` and
the selection empty, `displayAll` is then `false`, and for every record
`displayWeather` writes the header line and the separator line and nothing
else: no field line. -/
theorem displayWeather_empty_show (caseTable : Char → Char) (st : FlagState) (now : Time)
    (d : WeatherResponse) :
    (showDetails.Set caseTable "" st).2 = none ∧
      (showDetails.Set caseTable "" st).1.showFlagProvidedByUser = true ∧
      (∀ k, (showDetails.Set caseTable "" st).1.detailsToShow k = false) ∧
      (!(showDetails.Set caseTable "" st).1.showFlagProvidedByUser ||
          (showDetails.Set caseTable "" st).1.detailsToShow "all") = false ∧
      displayWeather (showDetails.Set caseTable "" st).1.showFlagProvidedByUser now (some d)
          (showDetails.Set caseTable "" st).1.detailsToShow =
        [headerLine d, separatorLine d] ∧
      fieldLines (displayWeather (showDetails.Set caseTable "" st).1.showFlagProvidedByUser
          now (some d) (showDetails.Set caseTable "" st).1.detailsToShow) = [] := by
  have hsel : (showDetails.Set caseTable "" st).1.detailsToShow = showDetails.empty := rfl
  have hflag : (showDetails.Set caseTable "" st).1.showFlagProvidedByUser = true := rfl
  refine ⟨rfl, rfl, fun k => rfl, rfl, ?_, ?_⟩
  · rw [hsel, hflag, displayWeather_some]
    simp [showDetails.empty, Field.order, Field.selected, Field.tokens]
  · rw [hsel, hflag, fieldLines_displayWeather]
    simp [showDetails.empty, Field.order, Field.selected, Field.tokens]

/-- C5: when the option is not supplied, `displayWeather` writes the header
line, then the eleven field lines Condition, Temperature (with feels-like),
Min/Max Temp, Humidity, Pressure, Wind Speed, Cloudiness, Sunrise, Sunset,
Precipitation, Current Local Time, each once and in this order, then the
separator line, and nothing else; each field line starts with its label. -/
theorem displayWeather_omitted_lines (now : Time) (d : WeatherResponse)
    (detailsToShow : showDetails) :
    displayWeather false now (some d) detailsToShow =
      [headerLine d, conditionLine d, temperatureLine d, minMaxLine d, humidityLine d,
       pressureLine d, windLine d, cloudinessLine d, sunriseLine d, sunsetLine d,
       precipitationLine d, timeLine now d, separatorLine d] ∧
      List.Forall₂ (fun label line => label.data <+: line.data)
        ["Condition: ", "Temperature: ", "Min Temp: ", "Humidity: ", "Pressure: ",
         "Wind Speed: ", "Cloudiness: ", "Sunrise: ", "Sunset: ", "Precipitation: ",
         "Current Local Time: "]
        (fieldLines (displayWeather false now (some d) detailsToShow)) := by
  constructor
  · rw [displayWeather_some]
    simp [allLines]
  · rw [fieldLines_displayWeather]
    simp [allLines, conditionLine, temperatureLine, minMaxLine, humidityLine, pressureLine,
      windLine, cloudinessLine, sunriseLine, sunsetLine, precipitationLine, timeLine,
      String.data_append, List.append_assoc]

/-! ### The separator line -/

theorem utf8Size_eq_one_of_ascii (c : Char) (h : c.toNat ≤ 127) : c.utf8Size = 1 := by
  have h1 : c.val ≤ 127 := by
    rw [UInt32.le_def]
    exact h
  simp [Char.utf8Size, h1]

theorem utf8Len_eq_length_of_ascii (cs : List Char) (h : ∀ c ∈ cs, c.toNat ≤ 127) :
    String.utf8Len cs = cs.length := by
  induction cs with
  | nil => rfl
  | cons c cs ih =>
    rw [String.utf8Len_cons, List.length_cons, ih (fun x hx => h x (List.mem_cons_of_mem _ hx)),
      utf8Size_eq_one_of_ascii c (h c (List.mem_cons_self _ _))]

/-- For a header text of ASCII characters the separator has one dash per
character of the header text. -/
theorem separatorLine_of_ascii (d : WeatherResponse)
    (h : ∀ c ∈ (headerText d.Name d.Sys.Country).data, c.toNat ≤ 127) :
    separatorLine d =
      String.mk (List.replicate (headerText d.Name d.Sys.Country).length '-') ++
        "\n" := by
  unfold separatorLine
  have : (headerText d.Name d.Sys.Country).utf8ByteSize =
      (headerText d.Name d.Sys.Country).length := utf8Len_eq_length_of_ascii _ h
  rw [this]

/-- The first write is the header line and the last write is the separator
line, whatever the selection. -/
theorem displayWeather_head_getLast (flag : Bool) (now : Time) (d : WeatherResponse)
    (sel : showDetails) :
    (displayWeather flag now (some d) sel).head? = some (headerLine d) ∧
      (displayWeather flag now (some d) sel).getLast? = some (separatorLine d) := by
  rw [displayWeather_some]
  constructor
  · rfl
  · rw [← List.cons_append, List.getLast?_append]
    rfl

/-- C3 at the city name `Zürich`: the header text has 29 characters, and the
last write, whatever the selection, is a line of 30 dashes, one per byte of
the header text. -/
theorem separator_longer_than_header_nonascii (flag : Bool) (now : Time) (sel : showDetails) :
    sampleRecord.Name = "Zürich" ∧ sampleRecord.Sys.Country = "CH" ∧
      (displayWeather flag now (some sampleRecord) sel).head? =
        some ("\n" ++ "--- Weather in Zürich, CH ---" ++ "\n") ∧
      ("--- Weather in Zürich, CH ---").length = 29 ∧
      (displayWeather flag now (some sampleRecord) sel).getLast? =
        some (String.mk (List.replicate 30 '-') ++ "\n") := by
  refine ⟨rfl, rfl, ?_, by decide, ?_⟩
  · rw [(displayWeather_head_getLast flag now sampleRecord sel).1]
    decide
  · rw [(displayWeather_head_getLast flag now sampleRecord sel).2]
    decide

/-! ### Precipitation -/

theorem data_head_append (a x : String) (c : Char) (h : a.data.head? = some c) :
    (a ++ x).data.head? = some c := by
  rw [String.data_append]
  cases ha : a.data with
  | nil => rw [ha] at h; cases h
  | cons b bs => rw [ha] at h; simpa using h

theorem ne_of_head_ne (s t : String) (c e : Char) (hs : s.data.head? = some c)
    (ht : t.data.head? = some e) (hce : c ≠ e) : s ≠ t := by
  intro hst
  rw [hst, ht] at hs
  exact hce (Option.some.inj hs).symm

theorem rainEntry_ne_none (x y : String) :
    "Rain: " ++ x ++ y ≠ "No recent precipitation reported" := by
  apply ne_of_head_ne _ _ (Char.ofNat 82) (Char.ofNat 78) _ (by decide) (by decide)
  rw [String.append_assoc]
  exact data_head_append _ _ _ (by decide)

theorem snowEntry_ne_none (x y : String) :
    "Snow: " ++ x ++ y ≠ "No recent precipitation reported" := by
  apply ne_of_head_ne _ _ (Char.ofNat 83) (Char.ofNat 78) _ (by decide) (by decide)
  rw [String.append_assoc]
  exact data_head_append _ _ _ (by decide)

/-- The summary is the no-precipitation text exactly when neither volume is
greater than zero. -/
theorem positivePrecipitation_eq_none_iff (rain snow : Float64) :
    positivePrecipitation rain snow = "No recent precipitation reported" ↔
      ¬ (0 < rain) ∧ ¬ (0 < snow) := by
  unfold positivePrecipitation
  by_cases hr : 0 < rain <;> by_cases hs : 0 < snow <;>
    simp only [hr, hs, not_true_eq_false, not_false_eq_true, and_self, and_true, and_false,
      false_and, if_true, if_false, List.append_nil, List.nil_append, List.singleton_append,
      String.intercalate, String.intercalate.go, iff_false, iff_true]
  · rw [← String.append_assoc, ← String.append_assoc]
    exact rainEntry_ne_none _ _
  · exact rainEntry_ne_none _ _
  · exact snowEntry_ne_none _ _

/-- On volumes that are not negative, greater than zero and nonzero agree. -/
theorem positivePrecipitation_eq_spec (rain snow : Float64) (hr : 0 ≤ rain) (hs : 0 ≤ snow) :
    positivePrecipitation rain snow = specPrecipitation rain snow := by
  have h1 : 0 < rain ↔ rain ≠ 0 := ⟨fun h => ne_of_gt h, fun h => lt_of_le_of_ne hr (Ne.symm h)⟩
  have h2 : 0 < snow ↔ snow ≠ 0 := ⟨fun h => ne_of_gt h, fun h => lt_of_le_of_ne hs (Ne.symm h)⟩
  unfold positivePrecipitation specPrecipitation
  simp only [h1, h2, not_not]

theorem mem_fieldLines_of_selected (now : Time) (d : WeatherResponse) (sel : showDetails)
    (f : Field) (hall : sel "all" = false) (hf : f.selected sel = true) (l : String)
    (hl : l ∈ f.linesOf (allLines now d)) :
    l ∈ fieldLines (displayWeather true now (some d) sel) := by
  rw [fieldLines_displayWeather]
  simp only [hall, Bool.not_true, Bool.or_self, Bool.false_eq_true, if_false]
  rw [List.mem_flatMap]
  refine ⟨f, ?_, ?_⟩
  · cases f <;> simp [Field.order]
  · rw [if_pos hf]
    exact hl

/-- Counterexample to C7: with rain volume `-1` and snow volume `0` the
volumes are not both zero, yet the precipitation line reads
`No recent precipitation reported`, where the claim asks for the rain entry. -/
theorem precipitation_negative_rain :
    negativeRainRecord.Rain.OneH ≠ 0 ∧
      (displayWeather false sampleNow (some negativeRainRecord) showDetails.empty)[10]? =
        some "Precipitation: No recent precipitation reported\n" ∧
      specPrecipitation negativeRainRecord.Rain.OneH negativeRainRecord.Snow.OneH =
        "Rain: -1.00 mm (last 1h)" := by
  decide

/-- C7 (amended): in display-all mode the precipitation line carries, and in
filtered mode with the field selected the line written carries, the text
`positivePrecipitation rain snow`: `No recent precipitation reported` exactly
when neither volume is greater than zero, otherwise the rain entry and the
snow entry whose volume is greater than zero, rain first, joined by a comma
and a space.  On volumes that are not negative this is the rule of the
specification (`specPrecipitation`). -/
theorem precipitation_text (now : Time) (d : WeatherResponse) (sel0 sel : showDetails)
    (hall : sel "all" = false)
    (hsel : (sel "precipitation" || sel "rain" || sel "snow") = true) :
    (displayWeather false now (some d) sel0)[10]? =
        some ("Precipitation: " ++ positivePrecipitation d.Rain.OneH d.Snow.OneH ++ "\n") ∧
      "Precipitation: " ++ positivePrecipitation d.Rain.OneH d.Snow.OneH ++ "\n" ∈
        fieldLines (displayWeather true now (some d) sel) ∧
      (positivePrecipitation d.Rain.OneH d.Snow.OneH = "No recent precipitation reported" ↔
        ¬ (0 < d.Rain.OneH) ∧ ¬ (0 < d.Snow.OneH)) ∧
      (0 < d.Rain.OneH → ¬ (0 < d.Snow.OneH) →
        positivePrecipitation d.Rain.OneH d.Snow.OneH =
          "Rain: " ++ fmtFixed 2 d.Rain.OneH ++ " mm (last 1h)") ∧
      (¬ (0 < d.Rain.OneH) → 0 < d.Snow.OneH →
        positivePrecipitation d.Rain.OneH d.Snow.OneH =
          "Snow: " ++ fmtFixed 2 d.Snow.OneH ++ " mm (last 1h)") ∧
      (0 < d.Rain.OneH → 0 < d.Snow.OneH →
        positivePrecipitation d.Rain.OneH d.Snow.OneH =
          "Rain: " ++ fmtFixed 2 d.Rain.OneH ++ " mm (last 1h)" ++ ", " ++
            ("Snow: " ++ fmtFixed 2 d.Snow.OneH ++ " mm (last 1h)")) ∧
      (0 ≤ d.Rain.OneH → 0 ≤ d.Snow.OneH →
        positivePrecipitation d.Rain.OneH d.Snow.OneH =
          specPrecipitation d.Rain.OneH d.Snow.OneH) ∧
      positivePrecipitation 0 0 = "No recent precipitation reported" ∧
      positivePrecipitation (3 / 2) 0 = "Rain: 1.50 mm (last 1h)" ∧
      positivePrecipitation 0 2 = "Snow: 2.00 mm (last 1h)" ∧
      positivePrecipitation 1 1 = "Rain: 1.00 mm (last 1h), Snow: 1.00 mm (last 1h)" := by
  have h32 : (3 / 2 : Float64) = mkRat 3 2 := by norm_num [Rat.mkRat_eq_div]
  refine ⟨?_, ?_, positivePrecipitation_eq_none_iff _ _, ?_, ?_, ?_,
    positivePrecipitation_eq_spec _ _, by decide, ?_, by decide, by decide⟩
  · rw [displayWeather_some]
    simp [allLines, precipitationLine]
  · apply mem_fieldLines_of_selected now d sel .precipitation hall
    · simpa [Field.selected, Field.tokens, Bool.or_assoc] using hsel
    · simp [Field.linesOf, allLines, precipitationLine]
  · intro hr hs
    simp [positivePrecipitation, hr, hs, String.intercalate, String.intercalate.go]
  · intro hr hs
    simp [positivePrecipitation, hr, hs, String.intercalate, String.intercalate.go]
  · intro hr hs
    simp [positivePrecipitation, hr, hs, String.intercalate, String.intercalate.go,
      String.append_assoc]
  · rw [h32]
    decide

/-- Witness of C7 (amended) at the sample record (rain 1.5, snow 1) and the
selection parsed from `rain`. -/
theorem precipitation_text_witness :
    (displayWeather false sampleNow (some sampleRecord) showDetails.empty)[10]? =
        some "Precipitation: Rain: 1.50 mm (last 1h), Snow: 1.00 mm (last 1h)\n" ∧
      "Precipitation: Rain: 1.50 mm (last 1h), Snow: 1.00 mm (last 1h)\n" ∈
        fieldLines (displayWeather true sampleNow (some sampleRecord)
          (showDetails.Set id "rain" FlagState.initial).1.detailsToShow) := by
  have h := precipitation_text sampleNow sampleRecord showDetails.empty
    (showDetails.Set id "rain" FlagState.initial).1.detailsToShow rfl rfl
  have e : "Precipitation: " ++
      positivePrecipitation sampleRecord.Rain.OneH sampleRecord.Snow.OneH ++ "\n" =
      "Precipitation: Rain: 1.50 mm (last 1h), Snow: 1.00 mm (last 1h)\n" := by decide
  rw [e] at h
  exact ⟨h.1, h.2.1⟩

/-! ### Sunrise and sunset -/

theorem wrapInt64_of_range (x : Int) (h1 : -2 ^ 63 ≤ x) (h2 : x < 2 ^ 63) :
    wrapInt64 x = x := by
  unfold wrapInt64
  rw [Int.emod_eq_of_lt (by omega) (by omega)]
  omega

/-- Without wrap-around the rendered clock is the time of day of the instant. -/
theorem unixClock_eq_specClock (t : Int) (h1 : -unixToAbsolute ≤ t) (h2 : t < 2 ^ 63) :
    unixClock t = specClock t := by
  unfold unixToAbsolute at h1
  have h3 : (t + unixToAbsolute) % 2 ^ 64 = t + unixToAbsolute := by
    unfold unixToAbsolute
    exact Int.emod_eq_of_lt (by omega) (by omega)
  have h4 : (absSeconds t) % 86400 = (t % 86400).toNat := by
    unfold absSeconds
    rw [h3]
    unfold unixToAbsolute
    omega
  unfold unixClock formatClock specClock
  simp only [h4]

/-- The later releases render the same clock wherever the earlier ones do not
wrap. -/
theorem unixClockLater_eq_specClock (t : Int) (h1 : -unixToAbsolute ≤ t)
    (h2 : t < 2 ^ 63) : unixClockLater t = specClock t := by
  unfold unixToAbsolute at h1
  have h3 : (t + unixToAbsoluteLater) % 2 ^ 64 = t + unixToAbsoluteLater := by
    unfold unixToAbsoluteLater
    exact Int.emod_eq_of_lt (by omega) (by omega)
  have h4 : ((t + unixToAbsoluteLater) % 2 ^ 64).toNat % 86400 = (t % 86400).toNat := by
    rw [h3]
    unfold unixToAbsoluteLater
    omega
  unfold unixClockLater formatClock specClock
  simp only [h4]

/-- Counterexample to C10: with sunrise and offset both the least `int64`
the sum wraps to `0` and the Sunrise line reads `00:00:00`, while the time of
day of the instant `s + o` seconds after the epoch is `16:59:44`; with the
least `int64` as sunrise and offset zero the absolute second count of the
`time` package wraps and the line reads `15:30:08`, while the time of day of
the instant is `08:29:52`.  The later releases of the `time` package render
the same two clocks. -/
theorem sunrise_wraps_at_extremes :
    extremeRecord.Sys.Sunrise = -2 ^ 63 ∧ extremeRecord.Timezone = -2 ^ 63 ∧
      (displayWeather false sampleNow (some extremeRecord) showDetails.empty)[8]? =
        some "Sunrise: 00:00:00\n" ∧
      specClock (extremeRecord.Sys.Sunrise + extremeRecord.Timezone) = "16:59:44" ∧
      minSunriseRecord.Sys.Sunrise = -2 ^ 63 ∧ minSunriseRecord.Timezone = 0 ∧
      (displayWeather false sampleNow (some minSunriseRecord) showDetails.empty)[8]? =
        some "Sunrise: 15:30:08\n" ∧
      specClock (minSunriseRecord.Sys.Sunrise + minSunriseRecord.Timezone) = "08:29:52" ∧
      unixClockLater (wrapInt64 (extremeRecord.Sys.Sunrise + extremeRecord.Timezone)) =
        "00:00:00" ∧
      unixClockLater (wrapInt64 (minSunriseRecord.Sys.Sunrise + minSunriseRecord.Timezone)) =
        "15:30:08" := by
  decide

/-- C10 (amended): the clock on the Sunrise (Sunset) line is a function of the
sum `s + o` of the sunrise (sunset) timestamp and the UTC offset alone, and
the line is the same text in display-all mode and in filtered mode, for all
`s` and `o`.  When the sum of the line is handled without 64-bit wrap-around
(`-9223372028715321600 ≤ s + o < 2 ^ 63`), that clock is the `HH:MM:SS` time
of day, in UTC, of the instant `s + o` seconds after the Unix epoch, with the
`time` package of Go up to 1.22 and with that of the later releases alike; for
`s = 1700000000`, `o = 3600` it is `23:13:20`. -/
theorem sunrise_sunset_clock (now : Time) (d : WeatherResponse) (sel0 sel : showDetails) :
    (-9223372028715321600 ≤ d.Sys.Sunrise + d.Timezone →
      d.Sys.Sunrise + d.Timezone < 2 ^ 63 →
        (displayWeather false now (some d) sel0)[8]? =
            some ("Sunrise: " ++ specClock (d.Sys.Sunrise + d.Timezone) ++ "\n") ∧
          (sel "all" = false → sel "sunrise" = true →
            "Sunrise: " ++ specClock (d.Sys.Sunrise + d.Timezone) ++ "\n" ∈
              fieldLines (displayWeather true now (some d) sel))) ∧
      (-9223372028715321600 ≤ d.Sys.Sunset + d.Timezone →
        d.Sys.Sunset + d.Timezone < 2 ^ 63 →
          (displayWeather false now (some d) sel0)[9]? =
              some ("Sunset: " ++ specClock (d.Sys.Sunset + d.Timezone) ++ "\n") ∧
            (sel "all" = false → sel "sunset" = true →
              "Sunset: " ++ specClock (d.Sys.Sunset + d.Timezone) ++ "\n" ∈
                fieldLines (displayWeather true now (some d) sel))) ∧
      (∀ (now1 : Time) (d1 : WeatherResponse) (sel1 : showDetails),
        d1.Sys.Sunrise + d1.Timezone = d.Sys.Sunrise + d.Timezone →
        (displayWeather false now1 (some d1) sel1)[8]? =
          (displayWeather false now (some d) sel0)[8]?) ∧
      (∀ (now1 : Time) (d1 : WeatherResponse) (sel1 : showDetails),
        d1.Sys.Sunset + d1.Timezone = d.Sys.Sunset + d.Timezone →
        (displayWeather false now1 (some d1) sel1)[9]? =
          (displayWeather false now (some d) sel0)[9]?) ∧
      (sel "all" = false → sel "sunrise" = true →
        ∀ l, (displayWeather false now (some d) sel0)[8]? = some l →
          l ∈ fieldLines (displayWeather true now (some d) sel)) ∧
      (sel "all" = false → sel "sunset" = true →
        ∀ l, (displayWeather false now (some d) sel0)[9]? = some l →
          l ∈ fieldLines (displayWeather true now (some d) sel)) ∧
      (∀ t : Int, -9223372028715321600 ≤ t → t < 2 ^ 63 →
        unixClock (wrapInt64 t) = specClock t ∧ unixClockLater (wrapInt64 t) = specClock t) ∧
      specClock (1700000000 + 3600) = specClock 1700003600 ∧
      specClock 1700003600 = "23:13:20" := by
  have a8 : (displayWeather false now (some d) sel0)[8]? = some (sunriseLine d) := by
    rw [displayWeather_some]
    simp [allLines]
  have a9 : (displayWeather false now (some d) sel0)[9]? = some (sunsetLine d) := by
    rw [displayWeather_some]
    simp [allLines]
  have m8 : sel "all" = false → sel "sunrise" = true →
      sunriseLine d ∈ fieldLines (displayWeather true now (some d) sel) := by
    intro hall h
    apply mem_fieldLines_of_selected now d sel .sunrise hall
    · simpa [Field.selected, Field.tokens] using h
    · simp [Field.linesOf, allLines]
  have m9 : sel "all" = false → sel "sunset" = true →
      sunsetLine d ∈ fieldLines (displayWeather true now (some d) sel) := by
    intro hall h
    apply mem_fieldLines_of_selected now d sel .sunset hall
    · simpa [Field.selected, Field.tokens] using h
    · simp [Field.linesOf, allLines]
  refine ⟨?_, ?_, ?_, ?_, ?_, ?_, ?_, rfl, by decide⟩
  · intro h1 h2
    have e : "Sunrise: " ++ specClock (d.Sys.Sunrise + d.Timezone) ++ "\n" = sunriseLine d := by
      unfold sunriseLine
      rw [wrapInt64_of_range _ (by omega) h2, unixClock_eq_specClock _ h1 h2]
    rw [e]
    exact ⟨a8, m8⟩
  · intro h1 h2
    have e : "Sunset: " ++ specClock (d.Sys.Sunset + d.Timezone) ++ "\n" = sunsetLine d := by
      unfold sunsetLine
      rw [wrapInt64_of_range _ (by omega) h2, unixClock_eq_specClock _ h1 h2]
    rw [e]
    exact ⟨a9, m9⟩
  · intro now1 d1 sel1 h
    rw [displayWeather_some, displayWeather_some]
    simp [allLines, sunriseLine, h]
  · intro now1 d1 sel1 h
    rw [displayWeather_some, displayWeather_some]
    simp [allLines, sunsetLine, h]
  · intro hall h l hl
    rw [a8] at hl
    rw [← Option.some.inj hl]
    exact m8 hall h
  · intro hall h l hl
    rw [a9] at hl
    rw [← Option.some.inj hl]
    exact m9 hall h
  · intro t h1 h2
    rw [wrapInt64_of_range _ (by omega) h2]
    exact ⟨unixClock_eq_specClock t h1 h2, unixClockLater_eq_specClock t h1 h2⟩

/-- Witness of C10 (amended) at the sample record (sunrise 1700000000, offset
3600) and the selection parsed from `sunrise,sunset`. -/
theorem sunrise_sunset_clock_witness :
    (displayWeather false sampleNow (some sampleRecord) showDetails.empty)[8]? =
        some "Sunrise: 23:13:20\n" ∧
      "Sunrise: 23:13:20\n" ∈
        fieldLines (displayWeather true sampleNow (some sampleRecord)
          (showDetails.Set id "sunrise,sunset" FlagState.initial).1.detailsToShow) := by
  have h := (sunrise_sunset_clock sampleNow sampleRecord showDetails.empty
    (showDetails.Set id "sunrise,sunset" FlagState.initial).1.detailsToShow).1
    (by decide) (by decide)
  have e : "Sunrise: " ++ specClock (sampleRecord.Sys.Sunrise + sampleRecord.Timezone) ++ "\n" =
      "Sunrise: 23:13:20\n" := by decide
  rw [e] at h
  exact ⟨h.1, h.2 rfl rfl⟩

/-! ### `getWeatherData` -/

theorem data_infix_middle (a b c : String) : b.data <:+: (a ++ b ++ c).data := by
  rw [String.data_append, String.data_append]
  exact ⟨a.data, c.data, rfl⟩

theorem data_infix_last (a b : String) : b.data <:+: (a ++ b).data := by
  rw [String.data_append]
  exact ⟨a.data, [], by simp⟩

/-- C9: for every response whose status is not 200, `getWeatherData` returns
an error and no record; status 401 gives the invalid-API-key message, status
404 the city-not-found message, which contains the city name, and every
other status a message that contains the decimal status code and the body
text.  For status 200 the result is the decoded record or a read or decode
failure, none of the status errors. -/
theorem getWeatherData_status (httpGet : String → Except String HttpResponse)
    (unmarshal : String → Except String WeatherResponse) (city : String)
    (resp : HttpResponse)
    (hget : httpGet (BASE_URL ++ "?q=" ++ city ++ "&appid=" ++ API_KEY ++ "&units=metric") =
      .ok resp) :
    (resp.StatusCode = 401 →
      getWeatherData httpGet unmarshal city =
        .error "error: Invalid API Key. Please check your API_KEY in main.go") ∧
    (resp.StatusCode = 404 →
      getWeatherData httpGet unmarshal city =
          .error ("error: City \x27" ++ city ++ "\x27 not found. Please check the city name") ∧
        city.data <:+:
          ("error: City \x27" ++ city ++ "\x27 not found. Please check the city name").data) ∧
    (resp.StatusCode ≠ 200 → resp.StatusCode ≠ 401 → resp.StatusCode ≠ 404 →
      getWeatherData httpGet unmarshal city =
          .error ("API returned non-200 status: " ++ fmtInt resp.StatusCode ++ " - " ++
            resp.Body) ∧
        (fmtInt resp.StatusCode).data <:+:
          ("API returned non-200 status: " ++ fmtInt resp.StatusCode ++ " - " ++
            resp.Body).data ∧
        resp.Body.data <:+:
          ("API returned non-200 status: " ++ fmtInt resp.StatusCode ++ " - " ++
            resp.Body).data) ∧
    (resp.StatusCode ≠ 200 → ∃ msg, getWeatherData httpGet unmarshal city = .error msg) ∧
    (resp.StatusCode = 200 →
      getWeatherData httpGet unmarshal city =
        match resp.ReadErr with
        | some err => .error ("failed to read response body: " ++ err)
        | none =>
          match unmarshal resp.Body with
          | .error err => .error ("failed to unmarshal JSON: " ++ err)
          | .ok weatherData => .ok weatherData) := by
  refine ⟨?_, ?_, ?_, ?_, ?_⟩
  · intro h
    simp [getWeatherData, hget, h]
  · intro h
    refine ⟨by simp [getWeatherData, hget, h], data_infix_middle _ _ _⟩
  · intro h1 h2 h3
    refine ⟨by simp [getWeatherData, hget, h1, h2, h3], ?_, data_infix_last _ _⟩
    rw [String.append_assoc _ " - "]
    exact data_infix_middle _ _ _
  · intro h
    by_cases h1 : resp.StatusCode = 401
    · exact ⟨_, by simp [getWeatherData, hget, h1]; rfl⟩
    · by_cases h2 : resp.StatusCode = 404
      · exact ⟨_, by simp [getWeatherData, hget, h2]; rfl⟩
      · exact ⟨_, by simp [getWeatherData, hget, h, h1, h2]; rfl⟩
  · intro h
    simp [getWeatherData, hget, h]

/-- Witness of C9: status 500 with body `server error` for the city `Paris`. -/
theorem getWeatherData_status_witness :
    getWeatherData (fun _ => .ok ⟨500, "server error", none⟩) (fun _ => .error "unused")
        "Paris" =
      .error "API returned non-200 status: 500 - server error" :=
  ((getWeatherData_status (fun _ => .ok ⟨500, "server error", none⟩)
    (fun _ => .error "unused") "Paris" ⟨500, "server error", none⟩ rfl).2.2.1
      (by decide) (by decide) (by decide)).1

/-! ### Selections -/

theorem mem_vocabulary_of_mem_tokens (f : Field) (t : String) (h : t ∈ f.tokens) :
    t ∈ vocabulary := by
  unfold vocabulary
  apply List.mem_cons_of_mem
  rw [List.mem_flatMap]
  exact ⟨f, by cases f <;> simp [Field.order], h⟩

theorem selected_congr (sel1 sel2 : showDetails) (f : Field)
    (h : ∀ t ∈ f.tokens, sel1 t = sel2 t) : f.selected sel1 = f.selected sel2 := by
  unfold Field.selected
  rw [Bool.eq_iff_iff, List.any_eq_true, List.any_eq_true]
  constructor
  · rintro ⟨t, ht, hs⟩
    exact ⟨t, ht, by rw [← h t ht]; exact hs⟩
  · rintro ⟨t, ht, hs⟩
    exact ⟨t, ht, by rw [h t ht]; exact hs⟩

/-- The output depends on the selection only through `all` and through which
fields are selected. -/
theorem displayWeather_congr (flag : Bool) (now : Time) (data : Option WeatherResponse)
    (sel1 sel2 : showDetails) (hall : sel1 "all" = sel2 "all")
    (h : ∀ f : Field, f.selected sel1 = f.selected sel2) :
    displayWeather flag now data sel1 = displayWeather flag now data sel2 := by
  cases data with
  | none => rfl
  | some d =>
    rw [displayWeather_some, displayWeather_some, hall]
    have : (fun f : Field => if f.selected sel1 = true then f.linesOf (allLines now d) else []) =
        (fun f : Field => if f.selected sel2 = true then f.linesOf (allLines now d) else []) := by
      funext f
      rw [h f]
    rw [this]

/-- The selection after `Set`: a key is present exactly when it is a nonempty
lower-cased and trimmed part of the option value. -/
theorem foldl_setStep (caseTable : Char → Char) (parts : List String) (m : showDetails)
    (k : String) :
    parts.foldl (showDetails.setStep caseTable) m k = true ↔
      m k = true ∨
        (k ≠ "" ∧ ∃ p ∈ parts, stringsTrimSpace (stringsToLower caseTable p) = k) := by
  induction parts generalizing m with
  | nil => simp
  | cons p ps ih =>
    rw [List.foldl_cons, ih]
    unfold showDetails.setStep showDetails.insertTrue
    by_cases hp : stringsTrimSpace (stringsToLower caseTable p) = ""
    · simp only [hp, ne_eq, not_true_eq_false, if_false, List.mem_cons, exists_eq_or_imp]
      constructor
      · rintro (h | ⟨hk, h⟩)
        · exact Or.inl h
        · exact Or.inr ⟨hk, Or.inr h⟩
      · rintro (h | ⟨hk, h | h⟩)
        · exact Or.inl h
        · exact absurd h.symm hk
        · exact Or.inr ⟨hk, h⟩
    · simp only [hp, ne_eq, not_false_eq_true, if_true, List.mem_cons, exists_eq_or_imp]
      by_cases hk : k = stringsTrimSpace (stringsToLower caseTable p)
      · subst hk
        simp [hp]
      · simp only [hk, if_false]
        constructor
        · rintro (h | ⟨hk1, h⟩)
          · exact Or.inl h
          · exact Or.inr ⟨hk1, Or.inr h⟩
        · rintro (h | ⟨hk1, h | h⟩)
          · exact Or.inl h
          · exact absurd h.symm hk
          · exact Or.inr ⟨hk1, h⟩

theorem Set_detailsToShow_iff (caseTable : Char → Char) (value : String) (st : FlagState)
    (k : String) :
    (showDetails.Set caseTable value st).1.detailsToShow k = true ↔
      k ≠ "" ∧ ∃ p ∈ stringsSplit value ',',
        stringsTrimSpace (stringsToLower caseTable p) = k := by
  unfold showDetails.Set
  simp only
  rw [foldl_setStep]
  simp [showDetails.empty]

/-- Option values whose parts are a rearrangement of one another give the same
selection. -/
theorem Set_perm (caseTable : Char → Char) (v1 v2 : String) (st1 st2 : FlagState)
    (h : (stringsSplit v1 ',').Perm (stringsSplit v2 ',')) :
    (showDetails.Set caseTable v1 st1).1.detailsToShow =
      (showDetails.Set caseTable v2 st2).1.detailsToShow := by
  funext k
  rw [Bool.eq_iff_iff, Set_detailsToShow_iff, Set_detailsToShow_iff]
  constructor
  · rintro ⟨hk, p, hp, e⟩
    exact ⟨hk, p, h.mem_iff.mp hp, e⟩
  · rintro ⟨hk, p, hp, e⟩
    exact ⟨hk, p, h.mem_iff.mpr hp, e⟩

theorem ite_sublist (c : Bool) (l : List String) :
    List.Sublist (if c = true then l else []) l := by
  cases c <;> simp

/-- The filtered body is a subsequence of the display-all body. -/
theorem filtered_sublist_all (now : Time) (d : WeatherResponse) (sel : showDetails) :
    List.Sublist
      (Field.order.flatMap
        (fun f => if f.selected sel = true then f.linesOf (allLines now d) else []))
      (allLines now d) := by
  have h : allLines now d =
      Field.order.flatMap (fun f => f.linesOf (allLines now d)) := by
    simp [Field.order, Field.linesOf, allLines]
  conv_rhs => rw [h]
  simp only [Field.order, List.flatMap_cons, List.flatMap_nil]
  exact (ite_sublist _ _).append ((ite_sublist _ _).append ((ite_sublist _ _).append
    ((ite_sublist _ _).append ((ite_sublist _ _).append ((ite_sublist _ _).append
    ((ite_sublist _ _).append ((ite_sublist _ _).append ((ite_sublist _ _).append
    ((ite_sublist _ _).append (List.Sublist.refl _))))))))))

theorem take_four_append (label rest : String) (h : 4 ≤ label.data.length) :
    (label ++ rest).data.take 4 = label.data.take 4 := by
  rw [String.data_append, List.take_append_of_le_length h]

/-- The eleven body lines start with eleven different labels. -/
theorem allLines_nodup (now : Time) (d : WeatherResponse) : (allLines now d).Nodup := by
  have hk : (allLines now d).map (fun l => l.data.take 4) =
      ["Cond".data, "Temp".data, "Min ".data, "Humi".data, "Pres".data, "Wind".data,
       "Clou".data, "Sunr".data, "Suns".data, "Prec".data, "Curr".data] := by
    simp only [allLines, List.map, conditionLine, temperatureLine, minMaxLine, humidityLine,
      pressureLine, windLine, cloudinessLine, sunriseLine, sunsetLine, precipitationLine,
      timeLine, String.append_assoc]
    rw [take_four_append "Condition: " _ (by decide),
      take_four_append "Temperature: " _ (by decide),
      take_four_append "Min Temp: " _ (by decide),
      take_four_append "Humidity: " _ (by decide),
      take_four_append "Pressure: " _ (by decide),
      take_four_append "Wind Speed: " _ (by decide),
      take_four_append "Cloudiness: " _ (by decide),
      take_four_append "Sunrise: " _ (by decide),
      take_four_append "Sunset: " _ (by decide),
      take_four_append "Precipitation: " _ (by decide),
      take_four_append "Current Local Time: " _ (by decide)]
    decide
  have hn : ((allLines now d).map (fun l => l.data.take 4)).Nodup := by
    rw [hk]
    decide
  exact List.Nodup.of_map _ hn

/-- A field has its lines in the filtered body exactly when it is selected. -/
theorem linesOf_subset_filtered_iff (now : Time) (d : WeatherResponse) (sel : showDetails)
    (f : Field) :
    (∀ l ∈ f.linesOf (allLines now d),
      l ∈ Field.order.flatMap
        (fun g => if g.selected sel = true then g.linesOf (allLines now d) else [])) ↔
      f.selected sel = true := by
  have hnd := allLines_nodup now d
  have hndr := List.nodup_reverse.mpr hnd
  simp only [allLines, List.reverse_cons, List.reverse_nil, List.nil_append,
    List.cons_append] at hnd hndr ⊢
  generalize conditionLine d = a0 at hnd hndr ⊢
  generalize temperatureLine d = a1 at hnd hndr ⊢
  generalize minMaxLine d = a2 at hnd hndr ⊢
  generalize humidityLine d = a3 at hnd hndr ⊢
  generalize pressureLine d = a4 at hnd hndr ⊢
  generalize windLine d = a5 at hnd hndr ⊢
  generalize cloudinessLine d = a6 at hnd hndr ⊢
  generalize sunriseLine d = a7 at hnd hndr ⊢
  generalize sunsetLine d = a8 at hnd hndr ⊢
  generalize precipitationLine d = a9 at hnd hndr ⊢
  generalize timeLine now d = a10 at hnd hndr ⊢
  simp only [List.nodup_cons, List.mem_cons, List.mem_singleton, not_or, List.not_mem_nil,
    not_false_eq_true, List.nodup_nil, and_true] at hnd hndr
  cases f <;>
    simp [Field.linesOf, Field.order, List.mem_ite_nil_right, hnd, hndr]

theorem replaceToken_all (sel : showDetails) (f : Field) (a b : String) (ha : a ∈ f.tokens)
    (hb : b ∈ f.tokens) : replaceToken sel a b "all" = sel "all" := by
  cases f <;> simp [Field.tokens] at ha hb <;>
    rcases ha with rfl | rfl | rfl <;> rcases hb with rfl | rfl | rfl <;>
    simp [replaceToken]

theorem replaceToken_selected (sel : showDetails) (f : Field) (a b : String)
    (ha : a ∈ f.tokens) (hb : b ∈ f.tokens) (hsel : sel a = true) (g : Field) :
    g.selected (replaceToken sel a b) = g.selected sel := by
  cases f <;> simp [Field.tokens] at ha hb <;>
    rcases ha with rfl | rfl | rfl <;> rcases hb with rfl | rfl | rfl <;>
    cases g <;> simp [Field.selected, Field.tokens, replaceToken, hsel]

/-- C4: when the option was supplied and the selection does not contain
`all`, `displayWeather` writes, between header and separator, for each field
in the fixed order (condition, temperature block, humidity, pressure, wind,
cloudiness, sunrise, sunset, precipitation, time) the lines that display-all
mode writes for it if one of its tokens is selected, and nothing otherwise.
The lines written are a subsequence of the display-all lines, without
repetition; a field has its lines written exactly when it is selected; keys
outside the vocabulary and the order of the parts of the option value do not
change the output. -/
theorem displayWeather_filtered (now : Time) (d : WeatherResponse) (sel : showDetails)
    (hall : sel "all" = false) :
    displayWeather true now (some d) sel =
        headerLine d ::
          (Field.order.flatMap
            (fun f => if f.selected sel = true then
              f.linesOf (fieldLines (displayWeather false now (some d) showDetails.empty))
              else []) ++
          [separatorLine d]) ∧
      List.Sublist (fieldLines (displayWeather true now (some d) sel))
        (fieldLines (displayWeather false now (some d) showDetails.empty)) ∧
      (fieldLines (displayWeather true now (some d) sel)).Nodup ∧
      Field.order.Nodup ∧
      (∀ f : Field,
        (∀ l ∈ f.linesOf (fieldLines (displayWeather false now (some d) showDetails.empty)),
          l ∈ fieldLines (displayWeather true now (some d) sel)) ↔
        f.selected sel = true) ∧
      (∀ sel1 : showDetails, (∀ t ∈ vocabulary, sel1 t = sel t) →
        displayWeather true now (some d) sel1 = displayWeather true now (some d) sel) ∧
      (∀ (caseTable : Char → Char) (v1 v2 : String) (st1 st2 : FlagState),
        (stringsSplit v1 ',').Perm (stringsSplit v2 ',') →
        displayWeather true now (some d) (showDetails.Set caseTable v1 st1).1.detailsToShow =
          displayWeather true now (some d)
            (showDetails.Set caseTable v2 st2).1.detailsToShow) := by
  have hallLines : fieldLines (displayWeather false now (some d) showDetails.empty) =
      allLines now d := by
    rw [fieldLines_displayWeather]
    simp
  have hfiltered : fieldLines (displayWeather true now (some d) sel) =
      Field.order.flatMap
        (fun f => if f.selected sel = true then f.linesOf (allLines now d) else []) := by
    rw [fieldLines_displayWeather]
    simp [hall]
  refine ⟨?_, ?_, ?_, by decide, ?_, ?_, ?_⟩
  · rw [hallLines, displayWeather_some]
    simp [hall]
  · rw [hallLines, hfiltered]
    exact filtered_sublist_all now d sel
  · rw [hfiltered]
    exact (allLines_nodup now d).sublist (filtered_sublist_all now d sel)
  · intro f
    rw [hallLines, hfiltered]
    exact linesOf_subset_filtered_iff now d sel f
  · intro sel1 h
    apply displayWeather_congr
    · exact h "all" (List.mem_cons_self _ _)
    · intro f
      exact selected_congr sel1 sel f
        (fun t ht => h t (mem_vocabulary_of_mem_tokens f t ht))
  · intro caseTable v1 v2 st1 st2 h
    rw [Set_perm caseTable v1 v2 st1 st2 h]

/-- Witness of C4 at the sample record and the selection parsed from
`wind, RAIN ,,foo`: the wind line and the precipitation line are written. -/
theorem displayWeather_filtered_witness :
    (showDetails.Set id "wind, RAIN ,,foo" FlagState.initial).1.detailsToShow "all" = false ∧
      fieldLines (displayWeather true sampleNow (some sampleRecord)
          (showDetails.Set id "wind, RAIN ,,foo" FlagState.initial).1.detailsToShow) =
        ["Wind Speed: 3.5 m/s\n",
         "Precipitation: Rain: 1.50 mm (last 1h), Snow: 1.00 mm (last 1h)\n"] ∧
      List.Sublist
        (fieldLines (displayWeather true sampleNow (some sampleRecord)
          (showDetails.Set id "wind, RAIN ,,foo" FlagState.initial).1.detailsToShow))
        (fieldLines (displayWeather false sampleNow (some sampleRecord) showDetails.empty)) :=
  ⟨rfl, by decide,
    (displayWeather_filtered sampleNow sampleRecord
      (showDetails.Set id "wind, RAIN ,,foo" FlagState.initial).1.detailsToShow rfl).2.1⟩

/-- C6: replacing a selected token by a synonym of the same field leaves the
output of `displayWeather` unchanged; in particular the selections parsed
from `wind` and from `wind-speed` give the same output, and the selection
parsed from `wind,wind-speed` writes the wind line once, between header and
separator. -/
theorem displayWeather_synonym (now : Time) (d : WeatherResponse) (sel : showDetails)
    (f : Field) (a b : String) (ha : a ∈ f.tokens) (hb : b ∈ f.tokens)
    (hsel : sel a = true) :
    displayWeather true now (some d) (replaceToken sel a b) =
        displayWeather true now (some d) sel ∧
      stdout (displayWeather true now (some d) (replaceToken sel a b)) =
        stdout (displayWeather true now (some d) sel) ∧
      (∀ (caseTable : Char → Char) (st1 st2 : FlagState),
        displayWeather true now (some d)
            (showDetails.Set caseTable "wind" st1).1.detailsToShow =
          displayWeather true now (some d)
            (showDetails.Set caseTable "wind-speed" st2).1.detailsToShow) ∧
      (∀ (caseTable : Char → Char) (st : FlagState),
        displayWeather true now (some d)
            (showDetails.Set caseTable "wind,wind-speed" st).1.detailsToShow =
          [headerLine d, windLine d, separatorLine d]) := by
  have key : displayWeather true now (some d) (replaceToken sel a b) =
      displayWeather true now (some d) sel :=
    displayWeather_congr true now (some d) _ _ (replaceToken_all sel f a b ha hb)
      (replaceToken_selected sel f a b ha hb hsel)
  refine ⟨key, by rw [key], ?_, ?_⟩
  · intro caseTable st1 st2
    have e1 : (showDetails.Set caseTable "wind" st1).1.detailsToShow =
        showDetails.empty.insertTrue "wind" := rfl
    have e2 : (showDetails.Set caseTable "wind-speed" st2).1.detailsToShow =
        showDetails.empty.insertTrue "wind-speed" := rfl
    rw [e1, e2]
    apply displayWeather_congr
    · rfl
    · intro g
      cases g <;> rfl
  · intro caseTable st
    have e : (showDetails.Set caseTable "wind,wind-speed" st).1.detailsToShow =
        (showDetails.empty.insertTrue "wind").insertTrue "wind-speed" := rfl
    rw [e, displayWeather_some]
    simp [showDetails.insertTrue, showDetails.empty, Field.order, Field.selected,
      Field.tokens, Field.linesOf, allLines]

/-- Witness of C6: the selection parsed from `temp`, with `temp` replaced by
`temperature`. -/
theorem displayWeather_synonym_witness :
    displayWeather true sampleNow (some sampleRecord)
        (replaceToken (showDetails.Set id "temp" FlagState.initial).1.detailsToShow
          "temp" "temperature") =
      displayWeather true sampleNow (some sampleRecord)
        (showDetails.Set id "temp" FlagState.initial).1.detailsToShow :=
  (displayWeather_synonym sampleNow sampleRecord
    (showDetails.Set id "temp" FlagState.initial).1.detailsToShow Field.temperature
    "temp" "temperature" (by decide) (by decide) rfl).1

/-! ### Trimming and lower-casing -/

theorem trimRunes_eq (l : List Char) :
    trimRunes l = (l.dropWhile unicodeIsSpace).rdropWhile unicodeIsSpace := rfl

theorem trimRunes_head (l : List Char) (c : Char) (h : (trimRunes l).head? = some c) :
    unicodeIsSpace c = false := by
  rw [trimRunes_eq] at h
  have hne : (l.dropWhile unicodeIsSpace).rdropWhile unicodeIsSpace ≠ [] := by
    intro e
    rw [e] at h
    cases h
  have hp := (List.rdropWhile_prefix unicodeIsSpace (l := l.dropWhile unicodeIsSpace)).head hne
  rw [List.head?_eq_head hne] at h
  have hc := Option.some.inj h
  rw [← hc, hp]
  exact List.head_dropWhile_not _ _ _

theorem trimRunes_getLast (l : List Char) (c : Char) (h : (trimRunes l).getLast? = some c) :
    unicodeIsSpace c = false := by
  rw [trimRunes_eq] at h
  have hne : (l.dropWhile unicodeIsSpace).rdropWhile unicodeIsSpace ≠ [] := by
    intro e
    rw [e] at h
    cases h
  rw [List.getLast?_eq_getLast _ hne] at h
  have hc := Option.some.inj h
  have := List.rdropWhile_last_not unicodeIsSpace (l.dropWhile unicodeIsSpace) hne
  rw [hc] at this
  simpa using this

theorem trimRunes_idem (l : List Char) : trimRunes (trimRunes l) = trimRunes l := by
  have h1 : (trimRunes l).dropWhile unicodeIsSpace = trimRunes l := by
    cases e : trimRunes l with
    | nil => rfl
    | cons a as =>
      have := trimRunes_head l a (by rw [e]; rfl)
      simp [List.dropWhile_cons, this]
  have h2 : (trimRunes l).rdropWhile unicodeIsSpace = trimRunes l := by
    rw [List.rdropWhile_eq_self_iff]
    intro hl
    have := trimRunes_getLast l _ (List.getLast?_eq_getLast _ hl)
    simp [this]
  conv_lhs => rw [trimRunes_eq, h1, h2]

theorem trimRunes_map (g : Char → Char) (hg : ∀ c, unicodeIsSpace (g c) = unicodeIsSpace c)
    (l : List Char) : trimRunes (l.map g) = (trimRunes l).map g := by
  have hcomp : unicodeIsSpace ∘ g = unicodeIsSpace := funext hg
  unfold trimRunes
  rw [List.dropWhile_map, hcomp, ← List.map_reverse, List.dropWhile_map, hcomp,
    ← List.map_reverse]

theorem trimRunes_of_all_space (l : List Char) (h : ∀ c ∈ l, unicodeIsSpace c = true) :
    trimRunes l = [] := by
  have : l.dropWhile unicodeIsSpace = [] := List.dropWhile_eq_nil_iff.mpr h
  unfold trimRunes
  rw [this]
  rfl

theorem toNat_ofNat_add_32 (n : Nat) (h1 : 65 ≤ n) (h2 : n ≤ 90) :
    (Char.ofNat (n + 32)).toNat = n + 32 := by
  interval_cases n <;> rfl

/-- The rune map `unicode.ToLower` keeps white space and other runes apart,
provided the case table does. -/
theorem unicodeToLower_isSpace (caseTable : Char → Char)
    (hspace : ∀ c, unicodeIsSpace (caseTable c) = unicodeIsSpace c) (c : Char) :
    unicodeIsSpace (unicodeToLower caseTable c) = unicodeIsSpace c := by
  unfold unicodeToLower
  split
  · split
    · rename_i h
      have e := toNat_ofNat_add_32 c.toNat h.1 h.2
      have h1 := h.1
      have h2 := h.2
      simp only [unicodeIsSpace, e]
      have a1 : ¬ (c.toNat + 32 ≤ 13) := by omega
      have a2 : ¬ (c.toNat ≤ 13) := by omega
      have a3 : ¬ (8192 ≤ c.toNat + 32) := by omega
      have a4 : ¬ (8192 ≤ c.toNat) := by omega
      have b1 : c.toNat + 32 ≠ 32 := by omega
      have b2 : c.toNat + 32 ≠ 133 := by omega
      have b3 : c.toNat + 32 ≠ 160 := by omega
      have b4 : c.toNat + 32 ≠ 5760 := by omega
      have b5 : c.toNat + 32 ≠ 8232 := by omega
      have b6 : c.toNat + 32 ≠ 8233 := by omega
      have b7 : c.toNat + 32 ≠ 8239 := by omega
      have b8 : c.toNat + 32 ≠ 8287 := by omega
      have b9 : c.toNat + 32 ≠ 12288 := by omega
      have c1 : c.toNat ≠ 32 := by omega
      have c2 : c.toNat ≠ 133 := by omega
      have c3 : c.toNat ≠ 160 := by omega
      have c4 : c.toNat ≠ 5760 := by omega
      have c5 : c.toNat ≠ 8232 := by omega
      have c6 : c.toNat ≠ 8233 := by omega
      have c7 : c.toNat ≠ 8239 := by omega
      have c8 : c.toNat ≠ 8287 := by omega
      have c9 : c.toNat ≠ 12288 := by omega
      simp [a1, a2, a3, a4, b1, b2, b3, b4, b5, b6, b7, b8, b9, c1, c2, c3, c4, c5, c6, c7, c8,
        c9]
    · rfl
  · exact hspace c

theorem trim_lower_comm (caseTable : Char → Char)
    (hspace : ∀ c, unicodeIsSpace (caseTable c) = unicodeIsSpace c) (p : String) :
    stringsTrimSpace (stringsToLower caseTable p) =
      stringsToLower caseTable (stringsTrimSpace p) := by
  unfold stringsTrimSpace stringsToLower
  rw [trimRunes_map _ (unicodeToLower_isSpace caseTable hspace)]

theorem lower_idem (caseTable : Char → Char)
    (hidem : ∀ c, unicodeToLower caseTable (unicodeToLower caseTable c) =
      unicodeToLower caseTable c) (p : String) :
    stringsToLower caseTable (stringsToLower caseTable p) = stringsToLower caseTable p := by
  unfold stringsToLower
  simp [List.map_map, Function.comp_def, hidem]

theorem lower_no_upper (caseTable : Char → Char)
    (hidem : ∀ c, unicodeToLower caseTable (unicodeToLower caseTable c) =
      unicodeToLower caseTable c) (c : Char) :
    ¬ (65 ≤ (unicodeToLower caseTable c).toNat ∧ (unicodeToLower caseTable c).toNat ≤ 90) := by
  intro h
  have h1 := hidem c
  generalize unicodeToLower caseTable c = e at h h1
  have h2 : unicodeToLower caseTable e = Char.ofNat (e.toNat + 32) := by
    unfold unicodeToLower
    rw [if_pos (by omega), if_pos h]
  rw [h2] at h1
  have h3 := congrArg Char.toNat h1
  rw [toNat_ofNat_add_32 _ h.1 h.2] at h3
  omega

theorem mem_of_mem_splitRunes (sep : Char) (l part : List Char) (c : Char)
    (hp : part ∈ splitRunes sep l) (hc : c ∈ part) : c ∈ l ∧ c ≠ sep := by
  induction l generalizing part with
  | nil =>
    simp [splitRunes] at hp
    subst hp
    cases hc
  | cons a as ih =>
    unfold splitRunes at hp
    split at hp
    · rename_i hsep
      rcases List.mem_cons.mp hp with h | h
      · subst h
        cases hc
      · have := ih part h hc
        exact ⟨List.mem_cons_of_mem _ this.1, this.2⟩
    · rename_i hsep
      split at hp
      · rename_i e
        simp at hp
        subst hp
        simp at hc
        subst hc
        exact ⟨List.mem_cons_self _ _, hsep⟩
      · rename_i q qs e
        rcases List.mem_cons.mp hp with h | h
        · subst h
          rcases List.mem_cons.mp hc with h1 | h1
          · subst h1
            exact ⟨List.mem_cons_self _ _, hsep⟩
          · have := ih q (by rw [e]; exact List.mem_cons_self _ _) h1
            exact ⟨List.mem_cons_of_mem _ this.1, this.2⟩
        · have := ih part (by rw [e]; exact List.mem_cons_of_mem _ h) hc
          exact ⟨List.mem_cons_of_mem _ this.1, this.2⟩

theorem mem_specTokens (caseTable : Char → Char) (value k : String) :
    k ∈ specTokens caseTable value ↔
      k ≠ "" ∧ ∃ p ∈ stringsSplit value ',',
        stringsToLower caseTable (stringsTrimSpace p) = k := by
  unfold specTokens
  rw [List.mem_filter, List.mem_map]
  constructor
  · rintro ⟨⟨p, hp, e⟩, hk⟩
    exact ⟨by simpa using hk, p, hp, e⟩
  · rintro ⟨hk, p, hp, e⟩
    exact ⟨⟨p, hp, e⟩, by simpa using hk⟩

/-- With the identity as case table, lower-casing twice is lower-casing once. -/
theorem unicodeToLower_id_idem (c : Char) :
    unicodeToLower id (unicodeToLower id c) = unicodeToLower id c := by
  by_cases h1 : c.toNat ≤ 127
  · by_cases h2 : 65 ≤ c.toNat ∧ c.toNat ≤ 90
    · have e : unicodeToLower id c = Char.ofNat (c.toNat + 32) := by
        unfold unicodeToLower
        rw [if_pos h1, if_pos h2]
      have e2 := toNat_ofNat_add_32 c.toNat h2.1 h2.2
      rw [e]
      unfold unicodeToLower
      rw [if_pos (by omega), if_neg (by omega)]
    · have e : unicodeToLower id c = c := by
        unfold unicodeToLower
        rw [if_pos h1, if_neg h2]
      rw [e, e]
  · have e : unicodeToLower id c = c := by
      unfold unicodeToLower
      rw [if_neg h1]
      rfl
    rw [e, e]

theorem mem_of_mem_trimRunes (l : List Char) (c : Char) (h : c ∈ trimRunes l) : c ∈ l := by
  rw [trimRunes_eq] at h
  exact (List.dropWhile_suffix unicodeIsSpace).subset
    ((List.rdropWhile_prefix unicodeIsSpace (l := l.dropWhile unicodeIsSpace)).subset h)

/-- Counterexample to C8: the option value made of the one rune U+1D400
(mathematical bold capital A, an upper-case letter without a lower-case form,
which the case table leaves unchanged) yields a selection whose key is that
very text: a key with an upper-case letter. -/
theorem Set_keeps_capital_without_lower_form :
    "𝐀" = String.mk [Char.ofNat 119808] ∧
      (showDetails.Set id "𝐀" FlagState.initial).1.detailsToShow "𝐀" = true ∧
      Char.ofNat 119808 ∈ "𝐀".data ∧
      listedUpperCase (Char.ofNat 119808) = true ∧
      unicodeToLower id (Char.ofNat 119808) = Char.ofNat 119808 := by
  decide

/-- C8 (amended): `Set(v)` returns no error, sets the flag and leaves as
selection exactly the set of the nonempty texts obtained from the parts of
`v` between commas by lower-casing and trimming.  A key of the selection is
never empty and has no white space at either end, and each of its runes is
the lower-case form, by `unicode.ToLower`, of a rune of `v`.  The Unicode case
table is a parameter.  When it maps white space to white space and other
runes to other runes, the selection is the set of the parts trimmed, then
lower-cased, and not empty, and it is empty when `v` holds only commas and
white space.  When lower-casing with it twice is lower-casing once, a key is
left unchanged by lower-casing and holds no letter `A`-`Z` (an upper-case
letter without a lower-case form stays). -/
theorem Set_spec (caseTable : Char → Char) (value : String) (st : FlagState) :
    (showDetails.Set caseTable value st).2 = none ∧
      (showDetails.Set caseTable value st).1.showFlagProvidedByUser = true ∧
      (∀ k, (showDetails.Set caseTable value st).1.detailsToShow k = true ↔
        k ≠ "" ∧ ∃ p ∈ stringsSplit value ',',
          stringsTrimSpace (stringsToLower caseTable p) = k) ∧
      (showDetails.Set caseTable value st).1.detailsToShow "" = false ∧
      (∀ k, (showDetails.Set caseTable value st).1.detailsToShow k = true →
        (∀ c, k.data.head? = some c → unicodeIsSpace c = false) ∧
        (∀ c, k.data.getLast? = some c → unicodeIsSpace c = false) ∧
        stringsTrimSpace k = k ∧
        (∀ c ∈ k.data, ∃ a ∈ value.data, unicodeToLower caseTable a = c)) ∧
      ((∀ c, unicodeIsSpace (caseTable c) = unicodeIsSpace c) →
        (∀ k, (showDetails.Set caseTable value st).1.detailsToShow k = true ↔
          k ∈ specTokens caseTable value) ∧
        ((∀ c ∈ value.data, c = ',' ∨ unicodeIsSpace c = true) →
          ∀ k, (showDetails.Set caseTable value st).1.detailsToShow k = false)) ∧
      ((∀ c, unicodeToLower caseTable (unicodeToLower caseTable c) =
          unicodeToLower caseTable c) →
        ∀ k, (showDetails.Set caseTable value st).1.detailsToShow k = true →
          stringsToLower caseTable k = k ∧
          (∀ c ∈ k.data, unicodeToLower caseTable c = c) ∧
          (∀ c ∈ k.data, ¬ (65 ≤ c.toNat ∧ c.toNat ≤ 90))) := by
  have hsrc : ∀ k, (showDetails.Set caseTable value st).1.detailsToShow k = true →
      ∀ c ∈ k.data, ∃ a ∈ value.data, unicodeToLower caseTable a = c := by
    intro k hk c hc
    obtain ⟨_, p, hp, e⟩ := (Set_detailsToShow_iff caseTable value st k).mp hk
    have hdata : k.data = trimRunes ((stringsToLower caseTable p).data) := by
      rw [← e]
      rfl
    rw [hdata] at hc
    have hc1 := mem_of_mem_trimRunes _ c hc
    unfold stringsToLower at hc1
    simp only [List.mem_map] at hc1
    obtain ⟨a, ha, rfl⟩ := hc1
    unfold stringsSplit at hp
    rw [List.mem_map] at hp
    obtain ⟨part, hpart, rfl⟩ := hp
    exact ⟨a, (mem_of_mem_splitRunes ',' value.data part a hpart ha).1, rfl⟩
  refine ⟨rfl, rfl, Set_detailsToShow_iff caseTable value st, ?_, ?_, ?_, ?_⟩
  · rw [Bool.eq_false_iff]
    intro h
    exact ((Set_detailsToShow_iff caseTable value st "").mp h).1 rfl
  · intro k hk
    obtain ⟨_, p, hp, e⟩ := (Set_detailsToShow_iff caseTable value st k).mp hk
    have hdata : k.data = trimRunes ((stringsToLower caseTable p).data) := by
      rw [← e]
      rfl
    refine ⟨?_, ?_, ?_, hsrc k hk⟩
    · intro c hc
      rw [hdata] at hc
      exact trimRunes_head _ c hc
    · intro c hc
      rw [hdata] at hc
      exact trimRunes_getLast _ c hc
    · rw [← e]
      unfold stringsTrimSpace
      simp only [trimRunes_idem]
  · intro hspace
    constructor
    · intro k
      rw [Set_detailsToShow_iff, mem_specTokens]
      constructor
      · rintro ⟨hk, p, hp, e⟩
        exact ⟨hk, p, hp, by rw [← trim_lower_comm caseTable hspace]; exact e⟩
      · rintro ⟨hk, p, hp, e⟩
        exact ⟨hk, p, hp, by rw [trim_lower_comm caseTable hspace]; exact e⟩
    · intro hall k
      rw [Bool.eq_false_iff]
      intro h
      obtain ⟨hk, p, hp, e⟩ := (Set_detailsToShow_iff caseTable value st k).mp h
      apply hk
      rw [← e, trim_lower_comm caseTable hspace]
      unfold stringsSplit at hp
      rw [List.mem_map] at hp
      obtain ⟨part, hpart, rfl⟩ := hp
      have hsp : ∀ c ∈ part, unicodeIsSpace c = true := by
        intro c hc
        have := mem_of_mem_splitRunes ',' value.data part c hpart hc
        rcases hall c this.1 with h1 | h1
        · exact absurd h1 this.2
        · exact h1
      unfold stringsTrimSpace stringsToLower
      simp only [trimRunes_of_all_space part hsp]
      rfl
  · intro hidem k hk
    have hfix : ∀ c ∈ k.data, unicodeToLower caseTable c = c := by
      intro c hc
      obtain ⟨a, _, rfl⟩ := hsrc k hk c hc
      exact hidem a
    refine ⟨?_, hfix, ?_⟩
    · unfold stringsToLower
      have : k.data.map (unicodeToLower caseTable) = k.data := by
        conv_rhs => rw [← List.map_id k.data]
        exact List.map_congr_left (fun c hc => by simpa using hfix c hc)
      rw [this]
    · intro c hc
      obtain ⟨a, _, rfl⟩ := hsrc k hk c hc
      exact lower_no_upper caseTable hidem a

/-- Witness of C8 (amended) with the identity as case table, at the option
value ` Temp, ,WIND `. -/
theorem Set_spec_witness :
    (showDetails.Set id " Temp, ,WIND " FlagState.initial).1.detailsToShow "temp" = true ∧
      (showDetails.Set id " Temp, ,WIND " FlagState.initial).1.detailsToShow "wind" = true ∧
      (showDetails.Set id " Temp, ,WIND " FlagState.initial).1.detailsToShow "" = false ∧
      specTokens id " Temp, ,WIND " = ["temp", "wind"] ∧
      stringsToLower id "temp" = "temp" :=
  ⟨(((Set_spec id " Temp, ,WIND " FlagState.initial).2.2.2.2.2.1 (fun _ => rfl)).1
      "temp").mpr (by decide),
   (((Set_spec id " Temp, ,WIND " FlagState.initial).2.2.2.2.2.1 (fun _ => rfl)).1
      "wind").mpr (by decide),
   (Set_spec id " Temp, ,WIND " FlagState.initial).2.2.2.1,
   by decide,
   ((Set_spec id " Temp, ,WIND " FlagState.initial).2.2.2.2.2.2 unicodeToLower_id_idem
      "temp" rfl).1⟩

end Weatherbro
